import Mathlib

/-!
# Verification of the email-to-DingTalk notification bridge

Shallow embedding of the core pipeline of the repository
(`main.py`, `src/models.py`, `src/dingtalk_notifier.py`,
`src/email_parser.py`, `src/email_fetcher.py`) and proofs of the
behavioural claims about it.

External library behaviour (the IMAP socket, the HTTP client, Python's
codec registry, the HTML tokenizer, the JSON string parser) is modelled
as explicit parameters or event streams; everything the repository's own
code does is translated directly.
-/

namespace EmailDingTalk

/-- Email data model (`src/models.py`, dataclass `Email`):
five string fields `id`, `subject`, `sender`, `date`, `body`. -/
structure Email where
  id : String
  subject : String
  sender : String
  date : String
  body : String
deriving DecidableEq, Repr

/-! ## Pipeline driver (`main.py`, `process_emails`) -/

/-- Observable behaviour of one run of `process_emails`: the returned
success count, the ids of the emails passed to `notifier.send`, and the
ids passed to `fetcher.mark_as_read`, in call order. -/
structure ProcessTrace where
  successCount : Nat
  notifyCalls : List String
  markReadCalls : List String
deriving DecidableEq, Repr

/-- `process_emails` (`main.py` lines 22-50): for each fetched email in
order, attempt `send`; on send success attempt `mark_as_read`; count a
success only when both return true. `notify` and `markRead` model the
boolean results of `DingTalkNotifier.send` and `EmailFetcher.mark_as_read`
(both catch their own exceptions and return bool). -/
def process_emails (notify : Email → Bool) (markRead : String → Bool) :
    List Email → ProcessTrace
  | [] => ⟨0, [], []⟩
  | e :: rest =>
    let t := process_emails notify markRead rest
    if notify e then
      if markRead e.id then
        ⟨t.successCount + 1, e.id :: t.notifyCalls, e.id :: t.markReadCalls⟩
      else
        ⟨t.successCount, e.id :: t.notifyCalls, e.id :: t.markReadCalls⟩
    else
      ⟨t.successCount, e.id :: t.notifyCalls, t.markReadCalls⟩

/-! ## Notifier retry loop (`src/dingtalk_notifier.py`, `send`) -/

/-- Outcome of one POST attempt inside `DingTalkNotifier.send`:
either a parsed response whose JSON body carried the given `errcode`
(absent key modelled as `none`), or a `requests.RequestException`. -/
inductive AttemptOutcome where
  | response (errcode : Option Int)
  | exn
deriving DecidableEq, Repr

/-- The success test of `send`: `result.get('errcode') == 0`. -/
def isSuccess : AttemptOutcome → Bool
  | .response (some 0) => true
  | _ => false

/-- Observable behaviour of one call to `send`: the returned bool, how
many attempts were made, and the sleep durations executed between
attempts, in order. -/
structure SendTrace where
  result : Bool
  attemptsMade : Nat
  sleeps : List Nat
deriving DecidableEq, Repr

/-- `DingTalkNotifier.MAX_RETRIES`. -/
def MAX_RETRIES : Nat := 3

/-- `DingTalkNotifier.INITIAL_BACKOFF`. -/
def INITIAL_BACKOFF : Nat := 1

/-- The `for attempt in range(MAX_RETRIES)` loop of `send`.  On a
non-success outcome, sleep `backoff` and double it, but only when
`attempt < MAX_RETRIES - 1`. -/
def sendLoop (outcomes : Nat → AttemptOutcome) :
    List Nat → Nat → SendTrace
  | [], _ => ⟨false, 0, []⟩
  | attempt :: rest, backoff =>
    if isSuccess (outcomes attempt) then
      ⟨true, 1, []⟩
    else if attempt < MAX_RETRIES - 1 then
      let t := sendLoop outcomes rest (backoff * 2)
      ⟨t.result, t.attemptsMade + 1, backoff :: t.sleeps⟩
    else
      let t := sendLoop outcomes rest backoff
      ⟨t.result, t.attemptsMade + 1, t.sleeps⟩

/-- `DingTalkNotifier.send` (lines 76-109), with the network modelled as
a map from attempt index to outcome. -/
def send (outcomes : Nat → AttemptOutcome) : SendTrace :=
  sendLoop outcomes (List.range MAX_RETRIES) INITIAL_BACKOFF

/-! ## Message formatting (`src/dingtalk_notifier.py`, `format_message`) -/

/-- Truncation threshold used by `format_message`. -/
def TRUNC_LIMIT : Nat := 2000

/-- Truncation marker appended by `format_message`. -/
def TRUNC_MARKER : String := "...(内容已截断)"

/-- The markdown template of `format_message` (the f-string). -/
def markdownText (subject sender date body : String) : String :=
  "### 📧 新邮件通知\n\n**主题:** " ++ subject ++
  "\n\n**发件人:** " ++ sender ++
  "\n\n**时间:** " ++ date ++
  "\n\n---\n\n**内容:**\n\n" ++ body

/-- The payload dict returned by `format_message`:
`{"msgtype": "markdown", "markdown": {"title": ..., "text": ...}}`. -/
structure MarkdownPayload where
  msgtype : String
  title : String
  text : String
deriving DecidableEq, Repr

/-- `DingTalkNotifier.format_message` (lines 48-74).  The body is a
local copy; the `Email` value is never written to (the source only
rebinds the local `body`), which the pure embedding reflects by taking
the email as an immutable value. -/
def format_message (e : Email) : MarkdownPayload :=
  let body :=
    if e.body.length > TRUNC_LIMIT then e.body.take TRUNC_LIMIT ++ TRUNC_MARKER
    else e.body
  ⟨"markdown", "新邮件通知", markdownText e.subject e.sender e.date body⟩

/-! ## UTF-8 codec (Python's `bytes.decode('utf-8')` / `str.encode('utf-8')`)

The codec registry is Python-library behaviour, external to the
repository; `decode_content` below is parameterised over it.  The
charsets expressible here (UTF-8, Latin-1, ASCII) are implemented in
full to instantiate the parameterised theorems. -/

/-- The Unicode replacement character U+FFFD. -/
def replacementChar : Char := Char.ofNat 0xFFFD

/-- UTF-8 continuation byte test: `0x80 ≤ b ≤ 0xBF`. -/
def isCont (b : Nat) : Bool := 0x80 ≤ b && b ≤ 0xBF

/-- Range of the first continuation byte of a three-byte sequence:
lead `0xE0` forbids overlong encodings, `0xED` forbids surrogates. -/
def cont3Ok (lead c1 : Nat) : Bool :=
  if lead = 0xE0 then 0xA0 ≤ c1 && c1 ≤ 0xBF
  else if lead = 0xED then 0x80 ≤ c1 && c1 ≤ 0x9F
  else isCont c1

/-- Range of the first continuation byte of a four-byte sequence:
lead `0xF0` forbids overlong encodings, `0xF4` caps at U+10FFFF. -/
def cont4Ok (lead c1 : Nat) : Bool :=
  if lead = 0xF0 then 0x90 ≤ c1 && c1 ≤ 0xBF
  else if lead = 0xF4 then 0x80 ≤ c1 && c1 ≤ 0x8F
  else isCont c1

/-- Scalar value of a two-byte sequence. -/
def cp2 (b c1 : Nat) : Nat := (b - 0xC0) * 0x40 + (c1 - 0x80)

/-- Scalar value of a three-byte sequence. -/
def cp3 (b c1 c2 : Nat) : Nat :=
  (b - 0xE0) * 0x1000 + (c1 - 0x80) * 0x40 + (c2 - 0x80)

/-- Scalar value of a four-byte sequence. -/
def cp4 (b c1 c2 c3 : Nat) : Nat :=
  (b - 0xF0) * 0x40000 + (c1 - 0x80) * 0x1000 + (c2 - 0x80) * 0x40 + (c3 - 0x80)

/-- Strict UTF-8 decoding of a byte list; `none` at the first invalid
sequence (Python's default `errors='strict'`, a `UnicodeDecodeError`). -/
def utf8DecodeChars : List Nat → Option (List Char)
  | [] => some []
  | b :: rest =>
    if b < 0x80 then
      (utf8DecodeChars rest).map (Char.ofNat b :: ·)
    else if 0xC2 ≤ b && b ≤ 0xDF then
      match rest with
      | c1 :: rest1 =>
        if isCont c1 then (utf8DecodeChars rest1).map (Char.ofNat (cp2 b c1) :: ·)
        else none
      | [] => none
    else if 0xE0 ≤ b && b ≤ 0xEF then
      match rest with
      | c1 :: c2 :: rest2 =>
        if cont3Ok b c1 && isCont c2 then
          (utf8DecodeChars rest2).map (Char.ofNat (cp3 b c1 c2) :: ·)
        else none
      | _ => none
    else if 0xF0 ≤ b && b ≤ 0xF4 then
      match rest with
      | c1 :: c2 :: c3 :: rest3 =>
        if cont4Ok b c1 && isCont c2 && isCont c3 then
          (utf8DecodeChars rest3).map (Char.ofNat (cp4 b c1 c2 c3) :: ·)
        else none
      | _ => none
    else none

/-- UTF-8 decoding with `errors='replace'`: each maximal invalid
subpart (the lead byte together with any valid continuation bytes that
follow it) becomes one U+FFFD and decoding continues; total by
construction. -/
def utf8ReplaceChars : List Nat → List Char
  | [] => []
  | b :: rest =>
    if b < 0x80 then Char.ofNat b :: utf8ReplaceChars rest
    else if 0xC2 ≤ b && b ≤ 0xDF then
      match rest with
      | c1 :: rest1 =>
        if isCont c1 then Char.ofNat (cp2 b c1) :: utf8ReplaceChars rest1
        else replacementChar :: utf8ReplaceChars (c1 :: rest1)
      | [] => [replacementChar]
    else if 0xE0 ≤ b && b ≤ 0xEF then
      match rest with
      | c1 :: rest1 =>
        if cont3Ok b c1 then
          match rest1 with
          | c2 :: rest2 =>
            if isCont c2 then Char.ofNat (cp3 b c1 c2) :: utf8ReplaceChars rest2
            else replacementChar :: utf8ReplaceChars (c2 :: rest2)
          | [] => [replacementChar]
        else replacementChar :: utf8ReplaceChars (c1 :: rest1)
      | [] => [replacementChar]
    else if 0xF0 ≤ b && b ≤ 0xF4 then
      match rest with
      | c1 :: rest1 =>
        if cont4Ok b c1 then
          match rest1 with
          | c2 :: rest2 =>
            if isCont c2 then
              match rest2 with
              | c3 :: rest3 =>
                if isCont c3 then Char.ofNat (cp4 b c1 c2 c3) :: utf8ReplaceChars rest3
                else replacementChar :: utf8ReplaceChars (c3 :: rest3)
              | [] => [replacementChar]
            else replacementChar :: utf8ReplaceChars (c2 :: rest2)
          | [] => [replacementChar]
        else replacementChar :: utf8ReplaceChars (c1 :: rest1)
      | [] => [replacementChar]
    else replacementChar :: utf8ReplaceChars rest
termination_by bs => bs.length
decreasing_by all_goals (simp <;> omega)

/-- UTF-8 encoding of one character. -/
def utf8EncodeChar (c : Char) : List Nat :=
  let n := c.toNat
  if n < 0x80 then [n]
  else if n < 0x800 then [0xC0 + n / 0x40, 0x80 + n % 0x40]
  else if n < 0x10000 then
    [0xE0 + n / 0x1000, 0x80 + n / 0x40 % 0x40, 0x80 + n % 0x40]
  else
    [0xF0 + n / 0x40000, 0x80 + n / 0x1000 % 0x40, 0x80 + n / 0x40 % 0x40,
     0x80 + n % 0x40]

/-- `str.encode('utf-8')`. -/
def utf8Encode (s : String) : List Nat := s.data.flatMap utf8EncodeChar

/-- `bytes.decode('utf-8')` (strict). -/
def utf8Decode (bs : List Nat) : Option String := (utf8DecodeChars bs).map String.mk

/-- `bytes.decode('utf-8', errors='replace')`. -/
def utf8DecodeReplace (bs : List Nat) : String := String.mk (utf8ReplaceChars bs)

/-- `bytes.decode('iso-8859-1')`: total — every byte `b` maps to the
code point `b`. -/
def latin1Decode (bs : List Nat) : Option String :=
  some (String.mk (bs.map Char.ofNat))

/-- `bytes.decode('ascii')`: defined exactly when every byte is below
0x80. -/
def asciiDecode (bs : List Nat) : Option String :=
  if bs.all (· < 0x80) then some (String.mk (bs.map Char.ofNat)) else none

/-! ## Content decoder (`src/email_parser.py`, `decode_content`) -/

/-- A codec environment: charset name and byte sequence to either the
decoded text, or `none` for a decode failure (`UnicodeDecodeError`) or
unknown charset name (`LookupError`) — exactly the two exception
classes `decode_content` catches. -/
def Codecs : Type := String → List Nat → Option String

/-- Reference codec environment used to instantiate the parameterised
decoder theorems: the three charsets implemented above; every other
name (including the GBK family, not expressible here) behaves as a
`LookupError`. -/
def refCodecs : Codecs := fun cs bs =>
  if cs = "utf-8" then utf8Decode bs
  else if cs = "iso-8859-1" then latin1Decode bs
  else if cs = "ascii" then asciiDecode bs
  else none

/-- `EmailParser.SUPPORTED_ENCODINGS`, in source order. -/
def SUPPORTED_ENCODINGS : List String :=
  ["utf-8", "gbk", "gb2312", "gb18030", "iso-8859-1", "ascii"]

/-- The `for encoding in SUPPORTED_ENCODINGS` loop of `decode_content`:
first charset that decodes wins; when the list is exhausted, the final
`content.decode('utf-8', errors='replace')`.  The boolean flags whether
that final replacement path produced the result. -/
def decodeFallback (dec : Codecs) (content : List Nat) :
    List String → String × Bool
  | [] => (utf8DecodeReplace content, true)
  | enc :: rest =>
    match dec enc content with
    | some s => (s, false)
    | none => decodeFallback dec content rest

/-- `EmailParser.decode_content` (lines 132-150), instrumented with a
flag marking whether the result came from the replacement path.  Empty
content returns immediately; a charset of `none` or `""` is falsy in
Python, skipping the declared attempt. -/
def decodeContentFlagged (dec : Codecs) (content : List Nat)
    (charset : Option String) : String × Bool :=
  if content = [] then ("", false)
  else
    match charset with
    | some cs =>
      if cs = "" then decodeFallback dec content SUPPORTED_ENCODINGS
      else
        match dec cs content with
        | some s => (s, false)
        | none => decodeFallback dec content SUPPORTED_ENCODINGS
    | none => decodeFallback dec content SUPPORTED_ENCODINGS

/-- `EmailParser.decode_content`: total by construction — every path of
the source either returns a decoded string or ends in the total
replacement decode. -/
def decode_content (dec : Codecs) (content : List Nat)
    (charset : Option String) : String :=
  (decodeContentFlagged dec content charset).1

/-! ## Mailbox client connect (`src/email_fetcher.py`, `connect`) -/

/-- The exception classes of `src/email_fetcher.py`:
`AuthenticationError` and `ConnectionError` are subclasses of
`EmailFetcherError`; the folder-selection failure raises the base class
`EmailFetcherError` itself, which is a distinct dynamic kind from both
subclasses. -/
inductive FetchErrorKind where
  | authenticationError
  | connectionError
  | emailFetcherError
deriving DecidableEq, Repr

/-- Server behaviour seen by one `connect` call: whether establishing
the SSL connection fails at the network level (socket error or timeout),
whether `login` succeeds (a failure raises `imaplib.IMAP4.error`), and
which folder names `select` answers with status `'OK'`. -/
structure ServerBehavior where
  netFailure : Bool
  loginOk : Bool
  selectOk : String → Bool

/-- The inbox name variants tried in order by `connect`. -/
def INBOX_NAMES : List String := ["INBOX", "inbox", "Inbox"]

/-- The folder loop of `connect`: first name with `select` status
`'OK'`, in list order. -/
def selectFirst (selectOk : String → Bool) : List String → Option String
  | [] => none
  | n :: rest => if selectOk n then some n else selectFirst selectOk rest

/-- `EmailFetcher.connect` (lines 47-86).  Network failure surfaces as
`ConnectionError`, a login failure as `AuthenticationError`; when no
inbox variant selects, the raised `EmailFetcherError` is not an
`imaplib.IMAP4.error`, `socket.timeout` or `OSError`, so it passes the
except clauses unchanged and reaches the caller as the base kind. -/
def connect (srv : ServerBehavior) : Except FetchErrorKind Bool :=
  if srv.netFailure then .error .connectionError
  else if !srv.loginOk then .error .authenticationError
  else
    match selectFirst srv.selectOk INBOX_NAMES with
    | some _ => .ok true
    | none => .error .emailFetcherError

/-! ## HTML text extraction (`src/email_parser.py`, `HTMLTextExtractor`)

Python's `html.parser.HTMLParser` tokenizes the document and calls the
handler methods; the tokenizer is library code, so the extractor is
modelled over the stream of handler events it delivers. -/

/-- One handler callback: a start tag, an end tag, or character data. -/
inductive HtmlEvent where
  | startTag (tag : String)
  | endTag (tag : String)
  | data (text : String)
deriving DecidableEq, Repr

/-- `HTMLTextExtractor.skip_tags`. -/
def skip_tags : List String := ["script", "style", "head", "meta", "link"]

/-- Start tags that append a newline in `handle_starttag`. -/
def NEWLINE_START_TAGS : List String := ["br", "p", "div", "tr", "li"]

/-- End tags that append a newline in `handle_endtag`. -/
def NEWLINE_END_TAGS : List String :=
  ["p", "div", "tr", "h1", "h2", "h3", "h4", "h5", "h6"]

/-- `str.lower()` on tag names (character-wise lowercasing; HTML tag
names are ASCII). -/
def pyLower (s : String) : String := String.mk (s.data.map Char.toLower)

/-- Extractor state: `text_parts` (appended on the right, as Python's
`list.append`) and the single `skip_data` boolean. -/
structure ExtractorState where
  text_parts : List String
  skip_data : Bool
deriving DecidableEq, Repr

/-- `HTMLTextExtractor.__init__`. -/
def initExtractor : ExtractorState := ⟨[], false⟩

/-- The three handler methods `handle_starttag`, `handle_endtag`,
`handle_data` of `HTMLTextExtractor`. -/
def handleEvent (st : ExtractorState) : HtmlEvent → ExtractorState
  | .startTag tag =>
    if pyLower tag ∈ skip_tags then { st with skip_data := true }
    else if pyLower tag ∈ NEWLINE_START_TAGS then
      { st with text_parts := st.text_parts ++ ["\n"] }
    else st
  | .endTag tag =>
    if pyLower tag ∈ skip_tags then { st with skip_data := false }
    else if pyLower tag ∈ NEWLINE_END_TAGS then
      { st with text_parts := st.text_parts ++ ["\n"] }
    else st
  | .data text =>
    if st.skip_data then st
    else { st with text_parts := st.text_parts ++ [text] }

/-- `HTMLParser.feed`: deliver the events in document order. -/
def feedEvents (st : ExtractorState) (events : List HtmlEvent) : ExtractorState :=
  events.foldl handleEvent st

/-- Is this event an end tag of one of the skip tags?  (The event kind
whose handling resets `skip_data`.) -/
def isSkipEnd : HtmlEvent → Bool
  | .endTag u => decide (pyLower u ∈ skip_tags)
  | _ => false

/-- Is this event character data? -/
def isDataEvent : HtmlEvent → Bool
  | .data _ => true
  | _ => false

/-- The whitespace class of the cleanup regexes (the ASCII fragment of
Python's `\s`; the properties proved do not depend on the wider Unicode
class). -/
def isPySpace (c : Char) : Bool :=
  c = ' ' || c = '\t' || c = '\n' || c = '\r' || c = '\x0b' || c = '\x0c'

/-- Index just past the last `'\n'` in the whitespace run `ws`, when
one exists — the end of the greedy `\n\s*\n` match. -/
def lastNewlineEnd (ws : List Char) : Option Nat :=
  match ws.reverse.findIdx? (· = '\n') with
  | some revIdx => some (ws.length - revIdx)
  | none => none

/-- `re.sub(r'\n\s*\n', '\n\n', text)`: left-to-right, non-overlapping;
a match is a `'\n'` followed by a whitespace run whose last `'\n'` ends
the match, replaced by `"\n\n"`. -/
def newlineRunSub : List Char → List Char
  | [] => []
  | c :: cs =>
    if c = '\n' then
      match lastNewlineEnd (cs.takeWhile isPySpace) with
      | some k => '\n' :: '\n' :: newlineRunSub (cs.drop k)
      | none => c :: newlineRunSub cs
    else c :: newlineRunSub cs
termination_by l => l.length
decreasing_by all_goals (simp <;> omega)

/-- `re.sub(r' +', ' ', text)`: collapse runs of literal spaces. -/
def spaceRunSub : List Char → List Char
  | [] => []
  | c :: cs =>
    if c = ' ' then ' ' :: spaceRunSub (cs.dropWhile (· = ' '))
    else c :: spaceRunSub cs
termination_by l => l.length
decreasing_by all_goals
  (simp <;> exact Nat.lt_succ_of_le (List.dropWhile_sublist _).length_le)

/-- `str.strip()` over the same whitespace class. -/
def pyStrip (l : List Char) : List Char :=
  ((l.dropWhile isPySpace).reverse.dropWhile isPySpace).reverse

/-- `HTMLTextExtractor.get_text`: join the parts, collapse blank runs
between newlines, collapse space runs, strip. -/
def get_text (parts : List String) : String :=
  String.mk (pyStrip (spaceRunSub (newlineRunSub (String.join parts).data)))

/-- `EmailParser._html_to_text` on the structured-parse path: feed the
document's events and return the extracted text.  The `except` fallback
to the regex stripper concerns only inputs on which the library parser
raises; both paths are total. -/
def htmlToTextEvents (events : List HtmlEvent) : String :=
  get_text (feedEvents initExtractor events).text_parts

/-! ## JSON serialization (`src/models.py`, `Email.serialize` /
`Email.deserialize`)

`json.dumps` / `json.loads` are library string codecs; the model works
at the level of the JSON values they exchange. -/

/-- JSON values as produced by `json.loads`. -/
inductive Json where
  | null
  | bool (b : Bool)
  | num (n : Int)
  | str (s : String)
  | arr (items : List Json)
  | obj (fields : List (String × Json))

/-- The two error behaviours of `Email.deserialize`: the `ValueError`
it raises itself (wrapping `json.JSONDecodeError` or `KeyError`), and
the `TypeError` that escapes uncaught when `data['id']` subscripts a
non-dict value. -/
inductive DeserError where
  | valueError
  | typeError
deriving DecidableEq, Repr

/-- Python dict lookup on an object's fields (later duplicate keys
overwrite earlier ones, as in `json.loads`). -/
def jsonGet (fields : List (String × Json)) (k : String) : Option Json :=
  (fields.reverse.find? (fun p => p.1 == k)).map (·.2)

/-- The five field values `Email.deserialize` extracts and passes to
the `Email` constructor (Python does not check they are strings). -/
structure EmailFields where
  id : Json
  subject : Json
  sender : Json
  date : Json
  body : Json

/-- `Email.deserialize` (lines 21-32) after `json.loads`: `none` stands
for a parse failure (`JSONDecodeError`, wrapped into `ValueError`); a
non-object value makes `data['id']` raise an uncaught `TypeError`; a
missing key raises `KeyError`, wrapped into `ValueError`. -/
def deserializeCore : Option Json → Except DeserError EmailFields
  | none => .error .valueError
  | some (.obj fields) =>
    match jsonGet fields "id", jsonGet fields "subject",
          jsonGet fields "sender", jsonGet fields "date",
          jsonGet fields "body" with
    | some i, some su, some se, some d, some b => .ok ⟨i, su, se, d, b⟩
    | _, _, _, _, _ => .error .valueError
  | some _ => .error .typeError

/-- `asdict(self)` as the JSON value `json.dumps` serializes: the five
fields in declaration order. -/
def asdictJson (e : Email) : Json :=
  .obj [("id", .str e.id), ("subject", .str e.subject),
        ("sender", .str e.sender), ("date", .str e.date),
        ("body", .str e.body)]

/-! ## Webhook signature (`src/dingtalk_notifier.py`, `generate_sign`)

`hmac`, `hashlib`, `base64` and `urllib.parse.quote_plus` are Python
standard library; they are implemented here in full (SHA-256 per FIPS
180-4, HMAC per RFC 2104, Base64, percent-encoding) so the signature
pipeline is concrete. -/

/-- Truncation to a 32-bit word. -/
def w32 (n : Nat) : Nat := n % 4294967296

/-- 32-bit right rotation. -/
def rotr (n w : Nat) : Nat := w32 ((w >>> n) ||| (w <<< (32 - n)))

/-- SHA-256 message-schedule sigma-0. -/
def ssig0 (w : Nat) : Nat := rotr 7 w ^^^ rotr 18 w ^^^ (w >>> 3)

/-- SHA-256 message-schedule sigma-1. -/
def ssig1 (w : Nat) : Nat := rotr 17 w ^^^ rotr 19 w ^^^ (w >>> 10)

/-- SHA-256 compression Sigma-0. -/
def bsig0 (w : Nat) : Nat := rotr 2 w ^^^ rotr 13 w ^^^ rotr 22 w

/-- SHA-256 compression Sigma-1. -/
def bsig1 (w : Nat) : Nat := rotr 6 w ^^^ rotr 11 w ^^^ rotr 25 w

/-- SHA-256 choice function. -/
def chWord (e f g : Nat) : Nat := (e &&& f) ^^^ ((4294967295 ^^^ e) &&& g)

/-- SHA-256 majority function. -/
def majWord (a b c : Nat) : Nat := (a &&& b) ^^^ (a &&& c) ^^^ (b &&& c)

/-- The 64 SHA-256 round constants (FIPS 180-4 §4.2.2, decimal). -/
def shaK : List Nat :=
  [1116352408, 1899447441, 3049323471, 3921009573, 961987163, 1508970993,
   2453635748, 2870763221, 3624381080, 310598401, 607225278, 1426881987,
   1925078388, 2162078206, 2614888103, 3248222580, 3835390401, 4022224774,
   264347078, 604807628, 770255983, 1249150122, 1555081692, 1996064986,
   2554220882, 2821834349, 2952996808, 3210313671, 3336571891, 3584528711,
   113926993, 338241895, 666307205, 773529912, 1294757372, 1396182291,
   1695183700, 1986661051, 2177026350, 2456956037, 2730485921, 2820302411,
   3259730800, 3345764771, 3516065817, 3600352804, 4094571909, 275423344,
   430227734, 506948616, 659060556, 883997877, 958139571, 1322822218,
   1537002063, 1747873779, 1955562222, 2024104815, 2227730452, 2361852424,
   2428436474, 2756734187, 3204031479, 3329325298]

/-- The eight working variables of the SHA-256 state. -/
structure Hash8 where
  a : Nat
  b : Nat
  c : Nat
  d : Nat
  e : Nat
  f : Nat
  g : Nat
  h : Nat
deriving DecidableEq, Repr

/-- The SHA-256 initial hash value (FIPS 180-4 §5.3.3, decimal). -/
def initH : Hash8 :=
  ⟨1779033703, 3144134277, 1013904242, 2773480762,
   1359893119, 2600822924, 528734635, 1541459225⟩

/-- Big-endian split of a 32-bit word into four bytes. -/
def toBytesBE4 (w : Nat) : List Nat :=
  [w / 0x1000000 % 256, w / 0x10000 % 256, w / 0x100 % 256, w % 256]

/-- Big-endian split of a 64-bit length into eight bytes. -/
def toBytesBE8 (n : Nat) : List Nat :=
  [n / 0x100000000000000 % 256, n / 0x1000000000000 % 256,
   n / 0x10000000000 % 256, n / 0x100000000 % 256,
   n / 0x1000000 % 256, n / 0x10000 % 256, n / 0x100 % 256, n % 256]

/-- Big-endian packing of bytes into 32-bit words. -/
def bytesToWords : List Nat → List Nat
  | b0 :: b1 :: b2 :: b3 :: rest =>
    (b0 * 0x1000000 + b1 * 0x10000 + b2 * 0x100 + b3) :: bytesToWords rest
  | _ => []

/-- Extend a 16-word block to the 64-word message schedule (the fuel
counts the 48 words still to append). -/
def extendSchedule : Nat → List Nat → List Nat
  | 0, ws => ws
  | k + 1, ws =>
    let n := ws.length
    let wi := w32 (ssig1 (ws.getD (n - 2) 0) + ws.getD (n - 7) 0 +
      ssig0 (ws.getD (n - 15) 0) + ws.getD (n - 16) 0)
    extendSchedule k (ws ++ [wi])

/-- One SHA-256 round. -/
def compressStep (st : Hash8) (kw : Nat × Nat) : Hash8 :=
  let t1 := w32 (st.h + bsig1 st.e + chWord st.e st.f st.g + kw.1 + kw.2)
  let t2 := w32 (bsig0 st.a + majWord st.a st.b st.c)
  ⟨w32 (t1 + t2), st.a, st.b, st.c, w32 (st.d + t1), st.e, st.f, st.g⟩

/-- Process one 64-byte block. -/
def compressBlock (st : Hash8) (block : List Nat) : Hash8 :=
  let ws := extendSchedule 48 (bytesToWords block)
  let fin := (shaK.zip ws).foldl compressStep st
  ⟨w32 (st.a + fin.a), w32 (st.b + fin.b), w32 (st.c + fin.c),
   w32 (st.d + fin.d), w32 (st.e + fin.e), w32 (st.f + fin.f),
   w32 (st.g + fin.g), w32 (st.h + fin.h)⟩

/-- Split a byte list into 64-byte blocks (fuel-bounded; any fuel at
least the length works). -/
def chunks64 : Nat → List Nat → List (List Nat)
  | 0, _ => []
  | _, [] => []
  | k + 1, bytes@(_ :: _) => bytes.take 64 :: chunks64 k (bytes.drop 64)

/-- SHA-256 padding: a `0x80` byte, zeros to 56 mod 64, and the
bit length as eight big-endian bytes. -/
def sha256Pad (msg : List Nat) : List Nat :=
  msg ++ 0x80 :: List.replicate ((119 - msg.length % 64) % 64) 0 ++
    toBytesBE8 (8 * msg.length)

/-- The final SHA-256 state over a byte message. -/
def sha256State (msg : List Nat) : Hash8 :=
  ((chunks64 (sha256Pad msg).length (sha256Pad msg)).foldl compressBlock initH)

/-- Digest serialization: the eight state words big-endian. -/
def digestBytes (st : Hash8) : List Nat :=
  toBytesBE4 st.a ++ toBytesBE4 st.b ++ toBytesBE4 st.c ++ toBytesBE4 st.d ++
  toBytesBE4 st.e ++ toBytesBE4 st.f ++ toBytesBE4 st.g ++ toBytesBE4 st.h

/-- `hashlib.sha256(msg).digest()`. -/
def sha256Bytes (msg : List Nat) : List Nat := digestBytes (sha256State msg)

/-- `hmac.new(key, msg, hashlib.sha256).digest()` (RFC 2104, block
size 64). -/
def hmacSha256 (key msg : List Nat) : List Nat :=
  let k0 := if 64 < key.length then sha256Bytes key else key
  let k1 := k0 ++ List.replicate (64 - k0.length) 0
  sha256Bytes (k1.map (· ^^^ 0x5c) ++ sha256Bytes (k1.map (· ^^^ 0x36) ++ msg))

/-- The Base64 alphabet. -/
def b64Alphabet : List Char :=
  "ABCDEFGHIJKLMNOPQRSTUVWXYZabcdefghijklmnopqrstuvwxyz0123456789+/".data

/-- Base64 symbol for a 6-bit value. -/
def b64Char (n : Nat) : Char := b64Alphabet.getD n 'A'

/-- Base64 encoding of a byte list, three bytes to four symbols, with
`=` padding. -/
def b64EncodeChars : List Nat → List Char
  | [] => []
  | [b0] => [b64Char (b0 / 4), b64Char (b0 % 4 * 16), '=', '=']
  | [b0, b1] =>
    [b64Char (b0 / 4), b64Char (b0 % 4 * 16 + b1 / 16),
     b64Char (b1 % 16 * 4), '=']
  | b0 :: b1 :: b2 :: rest =>
    b64Char (b0 / 4) :: b64Char (b0 % 4 * 16 + b1 / 16) ::
    b64Char (b1 % 16 * 4 + b2 / 64) :: b64Char (b2 % 64) ::
    b64EncodeChars rest

/-- `base64.b64encode(..).decode('utf-8')`. -/
def b64encode (bs : List Nat) : String := String.mk (b64EncodeChars bs)

/-- The characters `urllib.parse.quote_plus` leaves unescaped
(`always_safe`: letters, digits, `_.-~`). -/
def isQuoteSafe (c : Char) : Bool :=
  ('A' ≤ c && c ≤ 'Z') || ('a' ≤ c && c ≤ 'z') || ('0' ≤ c && c ≤ '9') ||
  c = '_' || c = '.' || c = '-' || c = '~'

/-- Uppercase hex digit. -/
def hexDigitU (n : Nat) : Char := "0123456789ABCDEF".data.getD n '0'

/-- `quote_plus` on one character: space to `+`, safe characters kept,
everything else percent-encoded per UTF-8 byte. -/
def quotePlusChar (c : Char) : List Char :=
  if c = ' ' then ['+']
  else if isQuoteSafe c then [c]
  else (utf8EncodeChar c).flatMap
    (fun b => ['%', hexDigitU (b / 16), hexDigitU (b % 16)])

/-- `urllib.parse.quote_plus`. -/
def quote_plus (s : String) : String :=
  String.mk (s.data.flatMap quotePlusChar)

/-- Decimal digit symbol. -/
def digitChar (k : Nat) : Char := "0123456789".data.getD k '0'

/-- Decimal digits of `n`, most significant first (fuel-bounded; any
fuel at least `n` works). -/
def toDecimalGo : Nat → Nat → List Char
  | 0, _ => []
  | fuel + 1, n =>
    if n = 0 then [] else toDecimalGo fuel (n / 10) ++ [digitChar (n % 10)]

/-- Python's `f"{timestamp}"` on a nonnegative int: decimal notation. -/
def natToString (n : Nat) : String :=
  if n = 0 then "0" else String.mk (toDecimalGo n n)

/-- The string that is MACed: `f"{timestamp}\n{secret}"`. -/
def stringToSign (timestamp : Nat) (secret : String) : String :=
  natToString timestamp ++ "\n" ++ secret

/-- `DingTalkNotifier.generate_sign` (lines 28-37): percent-encoding of
the Base64 encoding of the HMAC-SHA256 digest, keyed by the secret,
over `stringToSign`. -/
def generate_sign (timestamp : Nat) (secret : String) : String :=
  quote_plus (b64encode (hmacSha256 (utf8Encode secret)
    (utf8Encode (stringToSign timestamp secret))))

/-- Base-10 value of a digit string (for recovering the timestamp from
its decimal notation). -/
def decimalVal (cs : List Char) : Nat :=
  cs.foldl (fun acc c => acc * 10 + (c.toNat - 48)) 0

/-- The HMAC digest `generate_sign` computes before encoding. -/
def hmacOfSecret (timestamp : Nat) (secret : String) : List Nat :=
  hmacSha256 (utf8Encode secret) (utf8Encode (stringToSign timestamp secret))

/-! ## Theorems -/

/-- C1: for each unread message, in fetch order, the pipeline driver
attempts notify; mark-read is attempted iff notify succeeded for that
message; the returned count is the number of messages where both notify
and mark-read succeeded; and in the concrete 3-message run where notify
fails exactly for message 2, mark-read is invoked exactly for 1 and 3
and the count is 2. -/
theorem process_emails_pipeline :
    (∀ (notify : Email → Bool) (markRead : String → Bool) (emails : List Email),
      (process_emails notify markRead emails).notifyCalls = emails.map (·.id) ∧
      (process_emails notify markRead emails).markReadCalls =
        (emails.filter (fun e => notify e)).map (·.id) ∧
      (process_emails notify markRead emails).successCount =
        (emails.filter (fun e => notify e && markRead e.id)).length) ∧
    (process_emails (fun e => e.id != "2") (fun _ => true)
        [⟨"1", "s1", "f", "d", "b"⟩, ⟨"2", "s2", "f", "d", "b"⟩,
         ⟨"3", "s3", "f", "d", "b"⟩] =
      ⟨2, ["1", "2", "3"], ["1", "3"]⟩) := by
  constructor
  · intro notify markRead emails
    induction emails with
    | nil => simp [process_emails]
    | cons e rest ih =>
      obtain ⟨ih1, ih2, ih3⟩ := ih
      cases hn : notify e
      · simp [process_emails, hn, ih1, ih2, ih3]
      · cases hm : markRead e.id
        · simp [process_emails, hn, hm, ih1, ih2, ih3]
        · simp [process_emails, hn, hm, ih1, ih2, ih3]
  · decide

/-- C2: the notifier's send makes at most 3 attempts; a transport
exception and a nonzero (or missing) errcode both count as failure; on
persistent failure it sleeps 1 then 2 between attempts, does not sleep
after the final attempt, and returns false having made all 3 attempts;
on the first successful attempt (index `i`) it returns true immediately
with `i + 1` attempts made and only the `i` backoff sleeps that preceded
it; and a false result occurs only when all 3 attempts failed. -/
theorem send_retry_spec :
    (∀ o : Nat → AttemptOutcome, (send o).attemptsMade ≤ MAX_RETRIES) ∧
    (isSuccess .exn = false ∧
      ∀ c : Option Int, isSuccess (.response c) = (c == some 0)) ∧
    (∀ o : Nat → AttemptOutcome,
      (∀ i, i < MAX_RETRIES → isSuccess (o i) = false) →
      send o = ⟨false, 3, [1, 2]⟩) ∧
    (∀ (o : Nat → AttemptOutcome) (i : Nat), i < MAX_RETRIES →
      isSuccess (o i) = true → (∀ j, j < i → isSuccess (o j) = false) →
      send o = ⟨true, i + 1, List.take i [1, 2]⟩) ∧
    (∀ o : Nat → AttemptOutcome, (send o).result = false →
      (send o).attemptsMade = 3 ∧ ∀ i, i < MAX_RETRIES → isSuccess (o i) = false) := by
  have hrange : List.range MAX_RETRIES = [0, 1, 2] := rfl
  refine ⟨?_, ⟨rfl, ?_⟩, ?_, ?_, ?_⟩
  · intro o
    rw [send, hrange]
    cases h0 : isSuccess (o 0) <;> cases h1 : isSuccess (o 1) <;>
      cases h2 : isSuccess (o 2) <;>
      simp [sendLoop, h0, h1, h2, MAX_RETRIES, INITIAL_BACKOFF]
  · intro c
    rcases c with _ | k
    · rfl
    · by_cases hk : k = 0
      · subst hk; rfl
      · simp [isSuccess, hk]
  · intro o h
    have h0 := h 0 (by decide)
    have h1 := h 1 (by decide)
    have h2 := h 2 (by decide)
    rw [send, hrange]
    simp [sendLoop, h0, h1, h2, MAX_RETRIES, INITIAL_BACKOFF]
  · intro o i hi hs hprev
    have hi3 : i < 3 := hi
    rw [send, hrange]
    interval_cases i
    · simp [sendLoop, hs]
    · have h0 := hprev 0 (by decide)
      simp [sendLoop, h0, hs, MAX_RETRIES, INITIAL_BACKOFF]
    · have h0 := hprev 0 (by decide)
      have h1 := hprev 1 (by decide)
      simp [sendLoop, h0, h1, hs, MAX_RETRIES, INITIAL_BACKOFF]
  · intro o hres
    rw [send, hrange] at hres ⊢
    cases h0 : isSuccess (o 0) <;> cases h1 : isSuccess (o 1) <;>
      cases h2 : isSuccess (o 2) <;>
      simp [sendLoop, h0, h1, h2, MAX_RETRIES, INITIAL_BACKOFF] at hres ⊢ <;>
      (intro i hi; interval_cases i <;> assumption)

/-- Witness for C2 at concrete outcome maps: persistent transport
failure yields `⟨false, 3, [1, 2]⟩`; immediate application-level success
yields `⟨true, 1, []⟩`. -/
theorem send_retry_spec_witness :
    send (fun _ => .exn) = ⟨false, 3, [1, 2]⟩ ∧
    send (fun _ => .response (some 0)) = ⟨true, 1, []⟩ := by
  constructor
  · exact send_retry_spec.2.2.1 _ (fun i _ => rfl)
  · have h := send_retry_spec.2.2.2.1 (fun _ => .response (some 0)) 0
      (by decide) rfl (fun j hj => absurd hj (by omega))
    simpa using h

/-- C7: the formatted payload carries the body truncated to its first
2000 characters plus the truncation marker when the body exceeds 2000
characters, and the body unchanged otherwise; formatting is a pure
function of the immutable `Email` value (the source only rebinds a
local), so the message's own body field is unaffected. -/
theorem format_message_truncation :
    ∀ e : Email,
      ((format_message e).msgtype = "markdown" ∧
        (format_message e).title = "新邮件通知") ∧
      (e.body.length > TRUNC_LIMIT →
        (format_message e).text =
          markdownText e.subject e.sender e.date
            (e.body.take TRUNC_LIMIT ++ TRUNC_MARKER)) ∧
      (e.body.length ≤ TRUNC_LIMIT →
        (format_message e).text =
          markdownText e.subject e.sender e.date e.body) := by
  intro e
  refine ⟨⟨rfl, rfl⟩, ?_, ?_⟩
  · intro h
    simp [format_message, h]
  · intro h
    simp [format_message, Nat.not_lt.mpr h]

/-- Witness for C7: a short body is embedded unchanged; a 2001-character
body is truncated with the marker appended. -/
theorem format_message_truncation_witness :
    (format_message ⟨"1", "s", "f", "d", "short"⟩).text =
      markdownText "s" "f" "d" "short" ∧
    (format_message ⟨"1", "s", "f", "d", String.mk (List.replicate 2001 'a')⟩).text =
      markdownText "s" "f" "d"
        ((String.mk (List.replicate 2001 'a')).take TRUNC_LIMIT ++ TRUNC_MARKER) := by
  have hlen : (String.mk (List.replicate 2001 'a')).length = 2001 := by
    show (List.replicate 2001 'a').length = 2001
    exact List.length_replicate ..
  constructor
  · exact (format_message_truncation _).2.2 (by decide)
  · exact (format_message_truncation _).2.1 (by rw [hlen]; decide)

/-- C8: when the network is up and login succeeds but no inbox name
variant selects, `connect` fails with the base `EmailFetcherError` kind,
which is distinct from the authentication kind and from the connection
kind. -/
theorem connect_folder_selection_error :
    ∀ srv : ServerBehavior,
      srv.netFailure = false → srv.loginOk = true →
      (∀ n ∈ INBOX_NAMES, srv.selectOk n = false) →
      connect srv = .error .emailFetcherError ∧
      FetchErrorKind.emailFetcherError ≠ FetchErrorKind.authenticationError ∧
      FetchErrorKind.emailFetcherError ≠ FetchErrorKind.connectionError ∧
      FetchErrorKind.authenticationError ≠ FetchErrorKind.connectionError := by
  intro srv h1 h2 h3
  have hA := h3 "INBOX" (by simp [INBOX_NAMES])
  have hB := h3 "inbox" (by simp [INBOX_NAMES])
  have hC := h3 "Inbox" (by simp [INBOX_NAMES])
  refine ⟨?_, by decide, by decide, by decide⟩
  simp [connect, h1, h2, INBOX_NAMES, selectFirst, hA, hB, hC]

/-- Witness for C8 at a concrete server behaviour where every folder
selection is refused. -/
theorem connect_folder_selection_error_witness :
    connect ⟨false, true, fun _ => false⟩ = .error .emailFetcherError :=
  (connect_folder_selection_error ⟨false, true, fun _ => false⟩ rfl rfl
    (fun _ _ => rfl)).1

/-- If some listed charset decodes the content, the fallback loop of
`decode_content` stops at or before it and the replacement path is not
taken. -/
theorem decodeFallback_no_replace (dec : Codecs) (content : List Nat) :
    ∀ encs : List String, (∃ e ∈ encs, (dec e content).isSome = true) →
      (decodeFallback dec content encs).2 = false := by
  intro encs
  induction encs with
  | nil => rintro ⟨e, he, _⟩; cases he
  | cons enc rest ih =>
    rintro ⟨e, he, hs⟩
    cases hdec : dec enc content with
    | some s => simp [decodeFallback, hdec]
    | none =>
      simp only [decodeFallback, hdec]
      rcases List.mem_cons.mp he with rfl | hmem
      · rw [hdec] at hs; cases hs
      · exact ih ⟨e, hmem, hs⟩

/-- C3: the content decoder is total and ordered: empty input returns
empty text with no decode attempted; a truthy declared charset is tried
first and its success returned; on declared-charset failure (or when no
charset is declared) the fixed list is walked in order, the first
success returned; only after every entry fails does the total
`errors='replace'` UTF-8 decode produce the result.  "Never raises"
holds by construction: every path returns a `String`, for every codec
environment, every byte sequence, and every (possibly garbage) declared
charset name. -/
theorem decode_content_total_spec :
    (SUPPORTED_ENCODINGS =
      ["utf-8", "gbk", "gb2312", "gb18030", "iso-8859-1", "ascii"]) ∧
    (∀ (dec : Codecs) (charset : Option String),
      decodeContentFlagged dec [] charset = ("", false)) ∧
    (∀ (dec : Codecs) (content : List Nat) (cs s : String),
      content ≠ [] → cs ≠ "" → dec cs content = some s →
      decode_content dec content (some cs) = s) ∧
    (∀ (dec : Codecs) (content : List Nat) (cs : String),
      content ≠ [] → cs ≠ "" → dec cs content = none →
      decodeContentFlagged dec content (some cs) =
        decodeFallback dec content SUPPORTED_ENCODINGS) ∧
    (∀ (dec : Codecs) (content : List Nat),
      content ≠ [] →
      decodeContentFlagged dec content none =
        decodeFallback dec content SUPPORTED_ENCODINGS) ∧
    (∀ (dec : Codecs) (content : List Nat) (enc : String)
        (rest : List String) (s : String),
      dec enc content = some s →
      decodeFallback dec content (enc :: rest) = (s, false)) ∧
    (∀ (dec : Codecs) (content : List Nat) (enc : String)
        (rest : List String),
      dec enc content = none →
      decodeFallback dec content (enc :: rest) =
        decodeFallback dec content rest) ∧
    (∀ (dec : Codecs) (content : List Nat),
      decodeFallback dec content [] = (utf8DecodeReplace content, true)) := by
  refine ⟨rfl, ?_, ?_, ?_, ?_, ?_, ?_, ?_⟩
  · intro dec charset
    simp [decodeContentFlagged]
  · intro dec content cs s hne hcs hdec
    simp [decode_content, decodeContentFlagged, hne, hcs, hdec]
  · intro dec content cs hne hcs hdec
    simp [decodeContentFlagged, hne, hcs, hdec]
  · intro dec content hne
    simp [decodeContentFlagged, hne]
  · intro dec content enc rest s hdec
    simp [decodeFallback, hdec]
  · intro dec content enc rest hdec
    simp [decodeFallback, hdec]
  · intro dec content
    rfl

/-- Witness for C3: a declared-charset success returned directly, and a
garbage declared charset falling through to the list. -/
theorem decode_content_total_spec_witness :
    decode_content refCodecs [104, 105] (some "ascii") = "hi" ∧
    decodeContentFlagged refCodecs [255] (some "bogus") =
      decodeFallback refCodecs [255] SUPPORTED_ENCODINGS :=
  ⟨decode_content_total_spec.2.2.1 refCodecs [104, 105] "ascii" "hi"
      (by decide) (by decide) (by decide),
   decode_content_total_spec.2.2.2.1 refCodecs [255] "bogus"
      (by decide) (by decide) (by decide)⟩

/-- C4: decode after encode is the identity: when the declared
charset's codec maps the encoded bytes back to the original text (as
Python's supported codecs do for text encodable in them, `b` standing
for `encode(t, cs)`), `decode_content` with that declared charset
returns the text unchanged, because the declared charset is attempted
first and its success returned.  The `b = [] → t = ""` hypothesis covers
the empty-input short-circuit (the supported codecs encode only the
empty text to the empty byte string). -/
theorem decode_content_roundtrip :
    ∀ (dec : Codecs) (cs : String) (b : List Nat) (t : String),
      cs ≠ "" → dec cs b = some t → (b = [] → t = "") →
      decode_content dec b (some cs) = t := by
  intro dec cs b t hcs hdec hempty
  rcases b with _ | ⟨x, xs⟩
  · simpa [decode_content, decodeContentFlagged] using (hempty rfl).symm
  · simp [decode_content, decodeContentFlagged, hcs, hdec]

/-- Witness for C4: UTF-8 round-trip of a concrete accented text
through `decode_content` with declared charset `utf-8`. -/
theorem decode_content_roundtrip_witness :
    decode_content refCodecs (utf8Encode "héllo") (some "utf-8") = "héllo" :=
  decode_content_roundtrip refCodecs "utf-8" (utf8Encode "héllo") "héllo"
    (by decide) (by decide) (by decide)

/-- C10: for nonempty content, when the `iso-8859-1` codec is total
(it decodes every byte sequence, as Python's does), the fallback loop
succeeds at or before that entry, so the final `errors='replace'` path
never produces the result. -/
theorem decode_content_replace_unreachable :
    ∀ (dec : Codecs) (content : List Nat) (charset : Option String),
      content ≠ [] →
      (∀ bs : List Nat, (dec "iso-8859-1" bs).isSome = true) →
      (decodeContentFlagged dec content charset).2 = false := by
  intro dec content charset hne hlatin
  have hfb : (decodeFallback dec content SUPPORTED_ENCODINGS).2 = false := by
    refine decodeFallback_no_replace dec content SUPPORTED_ENCODINGS
      ⟨"iso-8859-1", ?_, hlatin content⟩
    simp [SUPPORTED_ENCODINGS]
  rcases charset with _ | cs
  · simpa [decodeContentFlagged, hne] using hfb
  · by_cases hcs : cs = ""
    · simpa [decodeContentFlagged, hne, hcs] using hfb
    · cases hdec : dec cs content with
      | some s => simp [decodeContentFlagged, hne, hcs, hdec]
      | none => simpa [decodeContentFlagged, hne, hcs, hdec] using hfb

/-- Witness for C10: a garbage declared charset over a byte that only
`iso-8859-1` (among the reference codecs) accepts still avoids the
replacement path. -/
theorem decode_content_replace_unreachable_witness :
    (decodeContentFlagged refCodecs [255] (some "garbage")).2 = false :=
  decode_content_replace_unreachable refCodecs [255] (some "garbage")
    (by decide) (fun _ => rfl)

/-- While `skip_data` is set and no end tag of a skip tag occurs, the
extractor ignores exactly the data events: feeding a segment equals
feeding the segment with its data events removed, and `skip_data`
remains set. -/
theorem feed_skip_region (mid : List HtmlEvent) :
    ∀ st : ExtractorState, st.skip_data = true →
      (∀ ev ∈ mid, isSkipEnd ev = false) →
      feedEvents st mid =
        feedEvents st (mid.filter (fun ev => !isDataEvent ev)) ∧
      (feedEvents st mid).skip_data = true := by
  induction mid with
  | nil => intro st h _; exact ⟨rfl, h⟩
  | cons ev rest ih =>
    intro st hskip hno
    have hev := hno ev (List.mem_cons_self ..)
    have hrest : ∀ e ∈ rest, isSkipEnd e = false :=
      fun e he => hno e (List.mem_cons_of_mem _ he)
    cases ev with
    | data d =>
      have hst : handleEvent st (.data d) = st := by simp [handleEvent, hskip]
      have := ih st hskip hrest
      simpa [feedEvents, List.filter_cons, isDataEvent, hst] using this
    | startTag t =>
      have hs : (handleEvent st (.startTag t)).skip_data = true := by
        simp only [handleEvent]
        split_ifs <;> simp [hskip]
      have := ih (handleEvent st (.startTag t)) hs hrest
      simpa [feedEvents, List.filter_cons, isDataEvent] using this
    | endTag t =>
      have ht : ¬ pyLower t ∈ skip_tags := by
        simpa [isSkipEnd] using hev
      have hs : (handleEvent st (.endTag t)).skip_data = true := by
        simp only [handleEvent]
        split_ifs <;> simp_all
      have := ih (handleEvent st (.endTag t)) hs hrest
      simpa [feedEvents, List.filter_cons, isDataEvent] using this

/-- C5 amended: for a well-formed document region consisting of a skip
tag (script/style/head/meta/link) whose content contains no end tag of
a skip tag, all character data inside the region is stripped: the
extracted text equals that of the same document with those data events
removed.  (With an inner skip element, data between its end tag and the
outer end tag leaks — see the counterexample.)  The conversion itself is
total on every event stream. -/
theorem html_strip_skip_region :
    ∀ (pre mid post : List HtmlEvent) (t : String),
      pyLower t ∈ skip_tags →
      (∀ ev ∈ mid, isSkipEnd ev = false) →
      htmlToTextEvents (pre ++ .startTag t :: (mid ++ .endTag t :: post)) =
      htmlToTextEvents (pre ++ .startTag t ::
        ((mid.filter fun ev => !isDataEvent ev) ++ .endTag t :: post)) := by
  intro pre mid post t ht hno
  have hst1 : (handleEvent (feedEvents initExtractor pre)
      (.startTag t)).skip_data = true := by
    simp [handleEvent, ht]
  have hmid := (feed_skip_region mid
    (handleEvent (feedEvents initExtractor pre) (.startTag t)) hst1 hno).1
  unfold htmlToTextEvents
  simp only [feedEvents, List.foldl_append, List.foldl_cons] at hmid ⊢
  rw [hmid]

/-- Witness for C5's amended theorem: data directly inside a `head`
element contributes nothing to the output. -/
theorem html_strip_skip_region_witness :
    htmlToTextEvents [.startTag "head", .data "secret", .endTag "head"] =
    htmlToTextEvents [.startTag "head", .endTag "head"] := by
  have h := html_strip_skip_region [] [.data "secret"] [] "head"
    (by decide) (by decide)
  simpa [List.filter, isDataEvent] using h

/-- C5 counterexample: in the well-formed document
`<head><style>a</style>leak</head>` (events as Python's `HTMLParser`
delivers them) every character datum lies inside the `head` element, a
skip tag, yet the extracted text is `"leak"`: the single `skip_data`
boolean is reset by the inner `</style>`, so text nested in `head`
after an inner skip element is not stripped. -/
theorem html_strip_nested_leak :
    htmlToTextEvents
      [.startTag "head", .startTag "style", .data "a", .endTag "style",
       .data "leak", .endTag "head"] = "leak" ∧
    ("leak" : String) ≠ "" := by
  constructor
  · have h : (feedEvents initExtractor
        [.startTag "head", .startTag "style", .data "a", .endTag "style",
         .data "leak", .endTag "head"]).text_parts = ["leak"] := by decide
    rw [htmlToTextEvents, h]
    simp [get_text, String.join, newlineRunSub, spaceRunSub, pyStrip,
      isPySpace, lastNewlineEnd, List.dropWhile]
  · decide

/-- C9 amended: deserializing the serialization of any `Email` returns
its five field values unchanged; the wrapped `ValueError` surfaces
exactly on a JSON parse failure or an object lacking one of the five
keys; valid JSON that is not an object instead escapes with an uncaught
`TypeError`. -/
theorem email_serde_spec :
    (∀ e : Email,
      deserializeCore (some (asdictJson e)) =
        .ok ⟨.str e.id, .str e.subject, .str e.sender,
             .str e.date, .str e.body⟩) ∧
    (deserializeCore none = .error .valueError) ∧
    (∀ fields : List (String × Json),
      (jsonGet fields "id" = none ∨ jsonGet fields "subject" = none ∨
       jsonGet fields "sender" = none ∨ jsonGet fields "date" = none ∨
       jsonGet fields "body" = none) →
      deserializeCore (some (.obj fields)) = .error .valueError) ∧
    (∀ n : Int, deserializeCore (some (.num n)) = .error .typeError) ∧
    (∀ s : String, deserializeCore (some (.str s)) = .error .typeError) ∧
    (∀ items : List Json,
      deserializeCore (some (.arr items)) = .error .typeError) ∧
    (deserializeCore (some .null) = .error .typeError) ∧
    (∀ b : Bool, deserializeCore (some (.bool b)) = .error .typeError) := by
  refine ⟨fun e => rfl, rfl, ?_, fun n => rfl, fun s => rfl, fun items => rfl,
    rfl, fun b => rfl⟩
  intro fields h
  cases h1 : jsonGet fields "id" <;> cases h2 : jsonGet fields "subject" <;>
    cases h3 : jsonGet fields "sender" <;> cases h4 : jsonGet fields "date" <;>
    cases h5 : jsonGet fields "body" <;>
    simp [deserializeCore, h1, h2, h3, h4, h5] <;>
    (rcases h with h | h | h | h | h <;> simp_all)

/-- Witness for C9's amended theorem: an object carrying only `id` is
rejected with the wrapped `ValueError`. -/
theorem email_serde_spec_witness :
    deserializeCore (some (.obj [("id", .str "x")])) = .error .valueError :=
  email_serde_spec.2.2.1 [("id", Json.str "x")] (Or.inr (Or.inl rfl))

/-- C9 counterexample: the valid JSON document `42` parses to a
non-object, which certainly lacks the five required keys, yet
`deserialize` does not raise its validation `ValueError` there: the
`TypeError` from `data['id']` escapes uncaught, a distinct error
kind. -/
theorem email_deserialize_nonobject :
    deserializeCore (some (.num 42)) = .error .typeError ∧
    DeserError.typeError ≠ DeserError.valueError :=
  ⟨rfl, by decide⟩

/-- FIPS 180-4 known-answer test validating the SHA-256
implementation. -/
theorem sha256_known_answer_abc :
    sha256Bytes (utf8Encode "abc") =
      [186, 120, 22, 191, 143, 1, 207, 234, 65, 65, 64, 222, 93, 174, 34,
       35, 176, 3, 97, 163, 150, 23, 122, 156, 180, 16, 255, 97, 242, 0,
       21, 173] := by
  decide

set_option maxRecDepth 10000 in
/-- RFC 4231 test case 2 validating the HMAC-SHA256 implementation. -/
theorem hmac_known_answer_rfc4231 :
    hmacSha256 (utf8Encode "Jefe")
        (utf8Encode "what do ya want for nothing?") =
      [91, 220, 193, 70, 191, 96, 117, 78, 106, 4, 36, 38, 8, 149, 117,
       199, 90, 0, 63, 8, 157, 39, 57, 131, 157, 236, 88, 185, 100, 236,
       56, 67] := by
  decide

/-- Each big-endian word byte is below 256. -/
theorem toBytesBE4_lt (w : Nat) : ∀ b ∈ toBytesBE4 w, b < 256 := by
  intro b hb
  simp [toBytesBE4] at hb
  rcases hb with rfl | rfl | rfl | rfl <;> exact Nat.mod_lt _ (by norm_num)

/-- A serialized digest has 32 bytes. -/
theorem digestBytes_length (st : Hash8) : (digestBytes st).length = 32 := rfl

/-- Serialized digest bytes are below 256. -/
theorem digestBytes_lt (st : Hash8) : ∀ b ∈ digestBytes st, b < 256 := by
  intro b hb
  simp [digestBytes] at hb
  rcases hb with hb | hb | hb | hb | hb | hb | hb | hb <;>
    exact toBytesBE4_lt _ b hb

/-- An HMAC-SHA256 digest has 32 bytes. -/
theorem hmacOfSecret_length (ts : Nat) (s : String) :
    (hmacOfSecret ts s).length = 32 := rfl

/-- HMAC-SHA256 digest bytes are below 256. -/
theorem hmacOfSecret_lt (ts : Nat) (s : String) :
    ∀ b ∈ hmacOfSecret ts s, b < 256 := by
  have h : ∃ m, hmacOfSecret ts s = digestBytes (sha256State m) := ⟨_, rfl⟩
  obtain ⟨m, hm⟩ := h
  rw [hm]
  exact digestBytes_lt _

/-- `generate_sign` encodes exactly the HMAC digest. -/
theorem generate_sign_eq (ts : Nat) (s : String) :
    generate_sign ts s = quote_plus (b64encode (hmacOfSecret ts s)) := rfl

/-- Every decimal digit symbol comes from the digit alphabet. -/
theorem digitChar_mem (k : Nat) : digitChar k ∈ "0123456789".data := by
  unfold digitChar
  have hlen : ("0123456789".data).length = 10 := rfl
  rcases lt_or_ge k 10 with h | h
  · rw [List.getD_eq_getElem _ _ (by omega)]
    exact List.getElem_mem _
  · rw [List.getD_eq_default _ _ (by omega)]
    decide

/-- No decimal digit is a newline. -/
theorem digitChar_ne_newline (k : Nat) : digitChar k ≠ '\n' := by
  intro hEq
  have h := digitChar_mem k
  rw [hEq] at h
  revert h
  decide

/-- A digit symbol's code point, for digits in range. -/
theorem digitChar_toNat (k : Nat) (h : k < 10) :
    (digitChar k).toNat = 48 + k := by
  interval_cases k <;> decide

/-- No character of a decimal notation is a newline. -/
theorem toDecimalGo_ne_newline :
    ∀ (fuel n : Nat), ∀ c ∈ toDecimalGo fuel n, c ≠ '\n' := by
  intro fuel
  induction fuel with
  | zero => intro n c hc; simp [toDecimalGo] at hc
  | succ fuel ih =>
    intro n c hc
    by_cases hn : n = 0
    · simp [toDecimalGo, hn] at hc
    · simp only [toDecimalGo, if_neg hn] at hc
      rcases List.mem_append.mp hc with hc | hc
      · exact ih _ c hc
      · rw [List.mem_singleton.mp hc]
        exact digitChar_ne_newline _

/-- Appending a digit multiplies the value by ten. -/
theorem decimalVal_append_digit (cs : List Char) (c : Char) :
    decimalVal (cs ++ [c]) = decimalVal cs * 10 + (c.toNat - 48) := by
  simp [decimalVal, List.foldl_append]

/-- With sufficient fuel, the decimal notation evaluates back to its
number. -/
theorem toDecimalGo_val :
    ∀ (fuel n : Nat), n ≤ fuel → decimalVal (toDecimalGo fuel n) = n := by
  intro fuel
  induction fuel with
  | zero =>
    intro n hn
    interval_cases n
    simp [toDecimalGo, decimalVal]
  | succ fuel ih =>
    intro n hn
    by_cases h0 : n = 0
    · simp [toDecimalGo, h0, decimalVal]
    · have hdiv : n / 10 ≤ fuel := by
        have := Nat.div_lt_self (Nat.pos_of_ne_zero h0) (by norm_num : 1 < 10)
        omega
      simp only [toDecimalGo, if_neg h0]
      rw [decimalVal_append_digit, ih _ hdiv,
        digitChar_toNat _ (Nat.mod_lt _ (by norm_num))]
      omega

/-- The decimal notation of `n` evaluates to `n`. -/
theorem natToString_val (n : Nat) : decimalVal (natToString n).data = n := by
  unfold natToString
  by_cases h0 : n = 0
  · rw [if_pos h0, h0]; decide
  · rw [if_neg h0]
    exact toDecimalGo_val n n le_rfl

/-- Decimal notation is injective. -/
theorem natToString_inj (m n : Nat) (h : natToString m = natToString n) :
    m = n := by
  have hv := congrArg (fun s => decimalVal s.data) h
  simpa [natToString_val] using hv

/-- No character of a number's decimal notation is a newline. -/
theorem natToString_ne_newline (n : Nat) :
    ∀ c ∈ (natToString n).data, c ≠ '\n' := by
  intro c hc
  unfold natToString at hc
  by_cases h0 : n = 0
  · rw [if_pos h0] at hc
    have : c = '0' := by simpa using hc
    rw [this]; decide
  · rw [if_neg h0] at hc
    exact toDecimalGo_ne_newline n n c hc

/-- Splitting at a separator absent from both left parts is
unambiguous. -/
theorem append_newline_inj :
    ∀ (a a2 s s2 : List Char),
      (∀ c ∈ a, c ≠ '\n') → (∀ c ∈ a2, c ≠ '\n') →
      a ++ '\n' :: s = a2 ++ '\n' :: s2 → a = a2 ∧ s = s2 := by
  intro a
  induction a with
  | nil =>
    intro a2 s s2 _ ha2 h
    cases a2 with
    | nil => simpa using h
    | cons c2 rest2 =>
      simp only [List.nil_append, List.cons_append, List.cons.injEq] at h
      exact absurd h.1.symm (ha2 c2 (by simp))
  | cons c rest ih =>
    intro a2 s s2 ha ha2 h
    cases a2 with
    | nil =>
      simp only [List.nil_append, List.cons_append, List.cons.injEq] at h
      exact absurd h.1 (ha c (by simp))
    | cons c2 rest2 =>
      simp only [List.cons_append, List.cons.injEq] at h
      obtain ⟨rfl, htail⟩ := h
      have hr := ih rest2 s s2 (fun x hx => ha x (by simp [hx]))
        (fun x hx => ha2 x (by simp [hx])) htail
      exact ⟨by rw [hr.1], hr.2⟩

/-- The MACed string determines both the timestamp and the secret: the
decimal timestamp contains no newline, so the first newline separates
unambiguously. -/
theorem stringToSign_inj (ts1 ts2 : Nat) (s1 s2 : String)
    (h : stringToSign ts1 s1 = stringToSign ts2 s2) : ts1 = ts2 ∧ s1 = s2 := by
  have hd := congrArg String.data h
  have hnl : ("\n" : String).data = ['\n'] := rfl
  simp only [stringToSign, String.data_append, hnl, List.append_assoc,
    List.singleton_append] at hd
  have hsplit := append_newline_inj (natToString ts1).data
    (natToString ts2).data s1.data s2.data
    (natToString_ne_newline ts1) (natToString_ne_newline ts2) hd
  refine ⟨natToString_inj _ _ ?_, ?_⟩
  · cases hts : natToString ts1
    cases hts2 : natToString ts2
    have := hsplit.1
    rw [hts, hts2] at this
    simp_all
  · cases hs1 : s1
    cases hs2 : s2
    have := hsplit.2
    rw [hs1, hs2] at this
    simp_all

/-- C6 amended: signature generation is the percent-encoding of the
Base64 of the HMAC-SHA256 digest of `"{timestamp}\n{secret}"` keyed by
the secret; it is deterministic — equal inputs give equal signatures;
the MACed string itself is injective in the `(timestamp, secret)` pair;
and the signature depends on the inputs only through the digest (equal
digests give equal signatures).  Universal distinctness of signatures
for distinct inputs is impossible — see the counterexample. -/
theorem generate_sign_spec :
    (∀ (ts1 ts2 : Nat) (s1 s2 : String), ts1 = ts2 → s1 = s2 →
      generate_sign ts1 s1 = generate_sign ts2 s2) ∧
    (∀ (ts1 ts2 : Nat) (s1 s2 : String),
      stringToSign ts1 s1 = stringToSign ts2 s2 → ts1 = ts2 ∧ s1 = s2) ∧
    (∀ (ts1 ts2 : Nat) (s1 s2 : String),
      hmacOfSecret ts1 s1 = hmacOfSecret ts2 s2 →
      generate_sign ts1 s1 = generate_sign ts2 s2) := by
  refine ⟨?_, ?_, ?_⟩
  · rintro ts1 ts2 s1 s2 rfl rfl; rfl
  · intro ts1 ts2 s1 s2 h
    exact stringToSign_inj ts1 ts2 s1 s2 h
  · intro ts1 ts2 s1 s2 h
    rw [generate_sign_eq, generate_sign_eq, h]

/-- Witness for C6's amended theorem at concrete inputs. -/
theorem generate_sign_spec_witness :
    generate_sign 5 "k" = generate_sign 5 "k" ∧
    (5 = 5 ∧ ("k" : String) = "k") :=
  ⟨generate_sign_spec.1 5 5 "k" "k" rfl rfl,
   generate_sign_spec.2.1 5 5 "k" "k" rfl⟩

/-- C6 counterexample: it is not true that any change of timestamp or
secret changes the signature.  The signature factors through the
32-byte HMAC digest, a finite range, while secrets range over an
infinite set, so by pigeonhole two distinct secrets (same timestamp)
share a signature.  (No explicit colliding pair is computable, but the
universal claim is provably false.) -/
theorem generate_sign_not_injective :
    ¬ (∀ (ts1 ts2 : Nat) (s1 s2 : String), (ts1, s1) ≠ (ts2, s2) →
        generate_sign ts1 s1 ≠ generate_sign ts2 s2) := by
  intro hclaim
  haveI : Infinite String :=
    Infinite.of_injective (fun n : Nat => String.mk (List.replicate n 'a'))
      (by intro a b h
          have := congrArg (fun s => s.data.length) h
          simpa using this)
  let f : String → Fin 32 → Fin 256 := fun s i =>
    ⟨(hmacOfSecret 0 s).getD i 0 % 256, Nat.mod_lt _ (by norm_num)⟩
  obtain ⟨s1, s2, hne, hfe⟩ := Finite.exists_ne_map_eq_of_infinite f
  have hdig : hmacOfSecret 0 s1 = hmacOfSecret 0 s2 := by
    apply List.ext_getElem (by rw [hmacOfSecret_length, hmacOfSecret_length])
    intro i h1 h2
    have hi : i < 32 := by rwa [hmacOfSecret_length] at h1
    have hv := congrArg Fin.val (congrFun hfe ⟨i, hi⟩)
    simp only [f] at hv
    rw [List.getD_eq_getElem _ _ h1, List.getD_eq_getElem _ _ h2] at hv
    have b1 := hmacOfSecret_lt 0 s1 _ (List.getElem_mem h1)
    have b2 := hmacOfSecret_lt 0 s2 _ (List.getElem_mem h2)
    rwa [Nat.mod_eq_of_lt b1, Nat.mod_eq_of_lt b2] at hv
  have hsig : generate_sign 0 s1 = generate_sign 0 s2 := by
    rw [generate_sign_eq, generate_sign_eq, hdig]
  exact hclaim 0 0 s1 s2 (by simp [hne]) hsig

end EmailDingTalk
